import Mathlib

/-!
Verification of the Emil-frontend coordination backend (`backend/main.py`):
per-client sessions, command queues, targeting/broadcast resolution,
interrupt semantics, status reporting and idle sweeping.

The session store (a Python dict from client id to `ClientSession`) is
modelled as an insertion-ordered association list; `deque` queues are
modelled as Lean lists with `popleft` at the head and `append` at the end;
timestamps are integers.  The externally-loaded scene definitions
(`scenes.json`, a name-keyed mapping) are modelled by their key set, a
`List String`, passed to the operations that consult them.
-/

namespace Emil

/-- JSON-like values appearing in command payloads. -/
inductive JValue where
  | null : JValue
  | bool : Bool → JValue
  | str : String → JValue
deriving DecidableEq

/-- Encode a Python `Optional[str]` as a JSON value. -/
def joptStr : Option String → JValue
  | none => JValue.null
  | some s => JValue.str s

/-- Encode a Python `Optional[bool]` as a JSON value. -/
def joptBool : Option Bool → JValue
  | none => JValue.null
  | some b => JValue.bool b

/-- Python truthiness of an `Optional[bool]` (`None` and `False` are falsy). -/
def truthyBool (b : Option Bool) : Bool := b.getD false

/-- The `Command` model from `main.py`: a flexible payload dict plus an
interrupt flag ("If true, clear queue and stop current action"). -/
structure Command where
  payload : List (String × JValue)
  interrupt : Bool := false
deriving DecidableEq

/-- The per-session reported state dict initialised in `ClientSession.__init__`. -/
structure SessionState where
  current_profile : Option String := none
  current_scene : Option String := none
  queue_size : Int := 0
  is_looping : Bool := false
  last_report_ts : Int := 0
  is_muted : Bool := false
  is_sync_enabled : Bool := true
deriving DecidableEq

/-- A `ClientSession`: a command queue, the reported state and a liveness stamp. -/
structure ClientSession where
  queue : List Command := []
  state : SessionState := {}
  last_seen : Int := 0
deriving DecidableEq

/-- A fresh session as built by `ClientSession.__init__` at time `now`. -/
def freshSession (now : Int) : ClientSession :=
  { queue := [], state := {}, last_seen := now }

/-- The session store: the global `sessions` dict, insertion ordered. -/
abbrev Sessions := List (String × ClientSession)

/-- Dict lookup `sessions[client_id]` (first entry with the key). -/
def lookupSession (cid : String) : Sessions → Option ClientSession
  | [] => none
  | (k, v) :: rest => if cid = k then some v else lookupSession cid rest

/-- Mutate, in place, every stored session whose id is in `targets`;
models `for sess in target_sessions: ...` where `target_sessions` holds
references into the `sessions` dict. -/
def updateTargets (targets : List String) (f : ClientSession → ClientSession)
    (s : Sessions) : Sessions :=
  s.map (fun p => if p.1 ∈ targets then (p.1, f p.2) else p)

/-- Perform `sess.queue.append(c)` on every targeted session. -/
def enqueueAll (targets : List String) (c : Command) (s : Sessions) : Sessions :=
  updateTargets targets (fun sess => { sess with queue := sess.queue ++ [c] }) s

/-- Perform `sess.queue.clear()` on every targeted session. -/
def clearAll (targets : List String) (s : Sessions) : Sessions :=
  updateTargets targets (fun sess => { sess with queue := [] }) s

/-- Enqueue a list of commands in order onto every targeted session. -/
def enqueueList (targets : List String) (cs : List Command) (s : Sessions) : Sessions :=
  cs.foldl (fun acc c => enqueueAll targets c acc) s

/-- The target-resolution pattern shared by every command-issuing endpoint:
`if request.client_id: [the session if present] else: list(sessions.values())`.
A `None` client id, and — by Python truthiness — the empty string, broadcast
to all currently known sessions. -/
def resolveTargets : Option String → Sessions → List String
  | none, s => s.map Prod.fst
  | some cid, s =>
      if cid = "" then s.map Prod.fst
      else if (lookupSession cid s).isSome then [cid] else []

/-- The `get_or_create_session` helper: create the session if absent (dict insertion
appends at the end), then stamp `last_seen = time.time()`. -/
def get_or_create_session (now : Int) (cid : String) (s : Sessions) : Sessions :=
  let s1 := if (lookupSession cid s).isSome then s else s ++ [(cid, freshSession now)]
  updateTargets [cid] (fun sess => { sess with last_seen := now }) s1

/-- The sweep `cleanup_sessions(timeout_seconds=300)`: collect the ids whose
`now - last_seen > timeout_seconds`, then delete each from the dict. -/
def cleanup_sessions (now : Int) (s : Sessions) (timeout_seconds : Int := 300) : Sessions :=
  let to_remove := (s.filter (fun p => decide (now - p.2.last_seen > timeout_seconds))).map Prod.fst
  to_remove.foldl (fun acc cid => acc.filter (fun p => p.1 != cid)) s

/-- The `CommandInput` request model for `POST /api/applyProfile`. -/
structure CommandInput where
  profile : Option String := none
  client_id : Option String := none
deriving DecidableEq

/-- Response `{status, targets}` of the enqueueing endpoints. -/
structure QueuedResp where
  status : String
  targets : Nat
deriving DecidableEq

/-- The internal command built by `apply_profile`: payload `{"profile": p}`,
`interrupt=False`. -/
def profileCommand (p : Option String) : Command :=
  { payload := [("profile", joptStr p)], interrupt := false }

/-- Endpoint `POST /api/applyProfile`: build the profile command, resolve targets,
append it to each targeted queue. -/
def apply_profile (inp : CommandInput) (s : Sessions) : Sessions × QueuedResp :=
  let internal_command := profileCommand inp.profile
  let targets := resolveTargets inp.client_id s
  (enqueueAll targets internal_command s, { status := "queued", targets := targets.length })

/-- Endpoint `GET /api/queue?client_id=...`: look up or create the session, then
`popleft` the head of its queue if any, else return `None`. -/
def get_next_command (now : Int) (cid : String) (s : Sessions) : Sessions × Option Command :=
  let s1 := get_or_create_session now cid s
  match lookupSession cid s1 with
  | none => (s1, none)
  | some sess =>
      match sess.queue with
      | [] => (s1, none)
      | c :: _ =>
          (updateTargets [cid] (fun ss => { ss with queue := ss.queue.tail }) s1, some c)

/-- The `StatusReport` request model for `POST /api/report`. -/
structure StatusReport where
  client_id : String
  current_profile : Option String := none
  current_scene : Option String := none
  queue_size : Int := 0
  is_looping : Bool := false
deriving DecidableEq

/-- Endpoint `POST /api/report`: get or create the session and overwrite the four
reportable state fields with the submitted values; returns `{"status": "ok"}`. -/
def report_status (now : Int) (r : StatusReport) (s : Sessions) : Sessions × String :=
  let s1 := get_or_create_session now r.client_id s
  let s2 := updateTargets [r.client_id]
    (fun sess => { sess with state :=
      { sess.state with
          current_profile := r.current_profile
          current_scene := r.current_scene
          queue_size := r.queue_size
          is_looping := r.is_looping } }) s1
  (s2, "ok")

/-- The `StatusUpdate` request model for `POST /api/status`. -/
structure StatusUpdate where
  client_id : Option String := none
  is_muted : Option Bool := none
  is_sync_enabled : Option Bool := none
deriving DecidableEq

/-- Endpoint `POST /api/status`: resolve targets, then set `is_muted` and/or
`is_sync_enabled` on each targeted session, skipping unset fields;
returns the target count. -/
def update_status (u : StatusUpdate) (s : Sessions) : Sessions × Nat :=
  let targets := resolveTargets u.client_id s
  let s1 := updateTargets targets
    (fun sess => { sess with state :=
      { sess.state with
          is_muted := match u.is_muted with
            | some b => b
            | none => sess.state.is_muted
          is_sync_enabled := match u.is_sync_enabled with
            | some b => b
            | none => sess.state.is_sync_enabled } }) s
  (s1, targets.length)

/-- The `PlayRequest` request model for `POST /api/playScene`. -/
structure PlayRequest where
  scene : String
  loop : Option Bool := some false
  audio_url : Option String := none
  msg : Option String := none
  interrupt : Option Bool := some true
  client_id : Option String := none
deriving DecidableEq

/-- The command built by `play_scene` on the success path; `b` is the
caller's interrupt flag, an actual boolean once the `Command` model's
`interrupt: bool` field has validated it. -/
def playSceneCommand (req : PlayRequest) (b : Bool) : Command :=
  { payload := [("scene", JValue.str req.scene), ("loop", joptBool req.loop),
                ("audio_url", joptStr req.audio_url), ("msg", joptStr req.msg)],
    interrupt := b }

/-- Endpoint `POST /api/playScene`, with the loaded scene definitions abstracted by
their key set `scenes`.  Faithful to the source order of effects: targets are
resolved, then — if `request.interrupt` is truthy — every targeted queue is
cleared, and only afterwards is the scene name validated; an unknown name
raises 404 at that point, leaving the clears in place.  An explicit null
interrupt flag is falsy for the clear check but is then rejected by the
`Command` model's non-optional `interrupt: bool` field when the command is
constructed, surfacing as a server error with nothing enqueued. -/
def play_scene (req : PlayRequest) (scenes : List String) (s : Sessions) :
    Sessions × Except (Nat × String) QueuedResp :=
  let targets := resolveTargets req.client_id s
  let s1 := if truthyBool req.interrupt then clearAll targets s else s
  if req.scene ∈ scenes then
    match req.interrupt with
    | some b =>
        (enqueueAll targets (playSceneCommand req b) s1,
         Except.ok { status := "queued", targets := targets.length })
    | none =>
        (s1, Except.error (500, "validation error: interrupt is not a valid boolean"))
  else
    (s1, Except.error (404, "Scene " ++ req.scene ++ " not found"))

/-- The `PlayScenesRequest` request model for `POST /api/playScenes`. -/
structure PlayScenesRequest where
  scenes : List String
  interrupt : Option Bool := some false
  client_id : Option String := none
deriving DecidableEq

/-- A command built inside the `play_scenes` loop for scene `name`:
loop explicitly false, no audio override, no message. -/
def mkBatchCommand (name : String) (intr : Bool) : Command :=
  { payload := [("scene", JValue.str name), ("loop", JValue.bool false),
                ("audio_url", JValue.null), ("msg", JValue.null)],
    interrupt := intr }

/-- The `for scene_name in request.scenes` loop of `play_scenes`: skip names
absent from the definitions; otherwise enqueue a command whose interrupt flag
is set only for the first accepted name of an interrupting batch, and record
the name in `queued_scenes`. -/
def playScenesLoop (targets : List String) (avail : List String) (ri : Bool) :
    List String → Sessions → List String → Bool → Sessions × List String
  | [], s, queued, _ => (s, queued)
  | name :: rest, s, queued, first =>
      if name ∈ avail then
        playScenesLoop targets avail ri rest
          (enqueueAll targets (mkBatchCommand name (first && ri)) s)
          (queued ++ [name]) false
      else
        playScenesLoop targets avail ri rest s queued first

/-- Response of `POST /api/playScenes`. -/
structure ScenesResp where
  status : String
  queued : List String
  targets : Nat
deriving DecidableEq

/-- Endpoint `POST /api/playScenes`: resolve targets, clear each targeted queue when
the batch interrupts, then run the accept/enqueue loop over the requested
names with the loaded scene definitions abstracted by their key set. -/
def play_scenes (req : PlayScenesRequest) (avail : List String) (s : Sessions) :
    Sessions × ScenesResp :=
  let targets := resolveTargets req.client_id s
  let s1 := if truthyBool req.interrupt then clearAll targets s else s
  let r := playScenesLoop targets avail (truthyBool req.interrupt) req.scenes s1 [] true
  (r.1, { status := "ok", queued := r.2, targets := targets.length })

/-- Iterated polling: `n` successive polls of `GET /api/queue` for one client, collecting the
returned commands in order. -/
def pollN (now : Int) (cid : String) : Nat → Sessions → Sessions × List (Option Command)
  | 0, s => (s, [])
  | n + 1, s =>
      let r := get_next_command now cid s
      let rest := pollN now cid n r.1
      (rest.1, r.2 :: rest.2)

/-- The list of commands the `play_scenes` loop enqueues onto every target,
in order: one command per requested name present in `avail`, whose interrupt
flag is `first && ri` for the first accepted name and `false` afterwards. -/
def batchCmds (avail : List String) (ri : Bool) : Bool → List String → List Command
  | _, [] => []
  | first, n :: rest =>
      if n ∈ avail then mkBatchCommand n (first && ri) :: batchCmds avail ri false rest
      else batchCmds avail ri first rest

/-- A sample store with one session `"x"` (used in concrete evaluations). -/
def exSessions : Sessions := [("x", freshSession 0)]

/-- A sample pending command (a profile application). -/
def exCommand : Command := { payload := [("profile", JValue.str "p")], interrupt := false }

/-- A sample store with one session `"a"` holding one pending command. -/
def exStaleSessions : Sessions := [("a", { freshSession 0 with queue := [exCommand] })]

/-! ### Basic lemmas about the session store -/

theorem lookupSession_nil (cid : String) : lookupSession cid [] = none := rfl

theorem lookupSession_cons (cid k : String) (v : ClientSession) (rest : Sessions) :
    lookupSession cid ((k, v) :: rest)
      = if cid = k then some v else lookupSession cid rest := rfl

theorem updateTargets_cons (targets : List String) (f : ClientSession → ClientSession)
    (k : String) (v : ClientSession) (rest : Sessions) :
    updateTargets targets f ((k, v) :: rest)
      = (if k ∈ targets then (k, f v) else (k, v)) :: updateTargets targets f rest := by
  simp only [updateTargets, List.map_cons]

theorem lookupSession_updateTargets (targets : List String) (f : ClientSession → ClientSession)
    (cid : String) (s : Sessions) :
    lookupSession cid (updateTargets targets f s)
      = (lookupSession cid s).map (fun sess => if cid ∈ targets then f sess else sess) := by
  induction s with
  | nil => rfl
  | cons p rest ih =>
      obtain ⟨k, v⟩ := p
      rw [updateTargets_cons]
      by_cases ht : k ∈ targets
      · rw [if_pos ht]
        by_cases hk : cid = k
        · subst hk
          rw [lookupSession_cons, lookupSession_cons]
          simp [ht]
        · rw [lookupSession_cons, lookupSession_cons, if_neg hk, if_neg hk, ih]
      · rw [if_neg ht]
        by_cases hk : cid = k
        · subst hk
          rw [lookupSession_cons, lookupSession_cons]
          simp [ht]
        · rw [lookupSession_cons, lookupSession_cons, if_neg hk, if_neg hk, ih]

theorem lookupSession_append_self (cid : String) (s : Sessions) (v : ClientSession)
    (h : lookupSession cid s = none) :
    lookupSession cid (s ++ [(cid, v)]) = some v := by
  induction s with
  | nil => simp [lookupSession]
  | cons p rest ih =>
      obtain ⟨k, w⟩ := p
      rw [lookupSession_cons] at h
      by_cases hk : cid = k
      · rw [if_pos hk] at h
        exact absurd h (by simp)
      · rw [if_neg hk] at h
        rw [List.cons_append, lookupSession_cons, if_neg hk]
        exact ih h

theorem lookupSession_get_or_create (now : Int) (cid : String) (s : Sessions) :
    lookupSession cid (get_or_create_session now cid s)
      = some (match lookupSession cid s with
              | some sess => { sess with last_seen := now }
              | none => freshSession now) := by
  unfold get_or_create_session
  cases h : lookupSession cid s with
  | some sess =>
      simp only [h, Option.isSome_some, if_true]
      rw [lookupSession_updateTargets]
      simp [h]
  | none =>
      simp only [h, Option.isSome_none, Bool.false_eq_true, if_false]
      rw [lookupSession_updateTargets]
      rw [lookupSession_append_self cid s _ h]
      simp [freshSession]

theorem lookupSession_enqueueAll (targets : List String) (c : Command)
    (cid : String) (s : Sessions) :
    lookupSession cid (enqueueAll targets c s)
      = (lookupSession cid s).map
          (fun sess => if cid ∈ targets then { sess with queue := sess.queue ++ [c] } else sess) :=
  lookupSession_updateTargets targets _ cid s

theorem lookupSession_clearAll (targets : List String) (cid : String) (s : Sessions) :
    lookupSession cid (clearAll targets s)
      = (lookupSession cid s).map
          (fun sess => if cid ∈ targets then { sess with queue := [] } else sess) :=
  lookupSession_updateTargets targets _ cid s

theorem lookupSession_enqueueList (targets : List String) (cs : List Command)
    (cid : String) (s : Sessions) (hcid : cid ∈ targets) (sess : ClientSession)
    (h : lookupSession cid s = some sess) :
    lookupSession cid (enqueueList targets cs s)
      = some { sess with queue := sess.queue ++ cs } := by
  induction cs generalizing s sess with
  | nil => simpa [enqueueList] using h
  | cons c rest ih =>
      have step : lookupSession cid (enqueueAll targets c s)
          = some { sess with queue := sess.queue ++ [c] } := by
        rw [lookupSession_enqueueAll]
        simp [h, hcid]
      have := ih (enqueueAll targets c s) _ step
      simpa [enqueueList, List.foldl_cons, List.append_assoc] using this

theorem updateTargets_nil_targets (f : ClientSession → ClientSession) (s : Sessions) :
    updateTargets [] f s = s := by
  induction s with
  | nil => rfl
  | cons p rest ih =>
      obtain ⟨k, v⟩ := p
      rw [updateTargets_cons, if_neg (List.not_mem_nil k), ih]

theorem enqueueList_nil_targets (cs : List Command) (s : Sessions) :
    enqueueList [] cs s = s := by
  induction cs generalizing s with
  | nil => rfl
  | cons c rest ih =>
      show enqueueList [] rest (enqueueAll [] c s) = s
      rw [enqueueAll, updateTargets_nil_targets, ih]

theorem resolveTargets_unknown (cid : String) (s : Sessions)
    (hne : cid ≠ "") (habs : lookupSession cid s = none) :
    resolveTargets (some cid) s = [] := by
  simp [resolveTargets, hne, habs]

theorem resolveTargets_empty_string (s : Sessions) :
    resolveTargets (some "") s = resolveTargets none s := by
  simp [resolveTargets]

/-! ### Characterisation of the `play_scenes` loop -/

theorem playScenesLoop_queued (targets avail : List String) (ri : Bool) :
    ∀ (names : List String) (s : Sessions) (queued : List String) (first : Bool),
    (playScenesLoop targets avail ri names s queued first).2
      = queued ++ names.filter (fun n => decide (n ∈ avail)) := by
  intro names
  induction names with
  | nil => intro s queued first; simp [playScenesLoop]
  | cons n rest ih =>
      intro s queued first
      by_cases hn : n ∈ avail
      · rw [playScenesLoop, if_pos hn, ih]
        simp [hn]
      · rw [playScenesLoop, if_neg hn, ih]
        simp [hn]

theorem playScenesLoop_sessions (targets avail : List String) (ri : Bool) :
    ∀ (names : List String) (s : Sessions) (queued : List String) (first : Bool),
    (playScenesLoop targets avail ri names s queued first).1
      = enqueueList targets (batchCmds avail ri first names) s := by
  intro names
  induction names with
  | nil => intro s queued first; simp [playScenesLoop, batchCmds, enqueueList]
  | cons n rest ih =>
      intro s queued first
      by_cases hn : n ∈ avail
      · rw [playScenesLoop, if_pos hn, ih, batchCmds, if_pos hn]
        rfl
      · rw [playScenesLoop, if_neg hn, ih, batchCmds, if_neg hn]

theorem batchCmds_first_false (avail : List String) (ri : Bool) :
    ∀ names : List String,
    batchCmds avail ri false names
      = (names.filter (fun n => decide (n ∈ avail))).map (fun m => mkBatchCommand m false) := by
  intro names
  induction names with
  | nil => rfl
  | cons n rest ih =>
      by_cases hn : n ∈ avail
      · rw [batchCmds, if_pos hn, ih]
        simp [hn]
      · rw [batchCmds, if_neg hn, ih]
        simp [hn]

theorem batchCmds_of_filter_cons (avail : List String) (ri : Bool) (n : String)
    (restf : List String) :
    ∀ names : List String,
    names.filter (fun m => decide (m ∈ avail)) = n :: restf →
    batchCmds avail ri true names
      = mkBatchCommand n ri :: restf.map (fun m => mkBatchCommand m false) := by
  intro names
  induction names with
  | nil => intro h; simp at h
  | cons m rest ih =>
      intro h
      by_cases hm : m ∈ avail
      · rw [List.filter_cons_of_pos (by simpa using hm)] at h
        obtain ⟨h1, h2⟩ := List.cons.inj h
        subst h1
        rw [batchCmds, if_pos hm, batchCmds_first_false, h2]
        simp
      · rw [List.filter_cons_of_neg (by simpa using hm)] at h
        rw [batchCmds, if_neg hm]
        exact ih h

theorem batchCmds_of_filter_nil (avail : List String) (ri : Bool) :
    ∀ (names : List String) (first : Bool),
    names.filter (fun m => decide (m ∈ avail)) = [] →
    batchCmds avail ri first names = [] := by
  intro names
  induction names with
  | nil => intro first h; rfl
  | cons m rest ih =>
      intro first h
      by_cases hm : m ∈ avail
      · rw [List.filter_cons_of_pos (by simpa using hm)] at h
        simp at h
      · rw [List.filter_cons_of_neg (by simpa using hm)] at h
        rw [batchCmds, if_neg hm]
        exact ih first h

/-! ### Dequeue and repeated polling -/

theorem get_next_command_of_queue_cons (now : Int) (cid : String) (s : Sessions)
    (sess : ClientSession) (c : Command) (restq : List Command)
    (h : lookupSession cid s = some sess) (hq : sess.queue = c :: restq) :
    (get_next_command now cid s).2 = some c ∧
    lookupSession cid (get_next_command now cid s).1
      = some { sess with last_seen := now, queue := restq } := by
  have h1 : lookupSession cid (get_or_create_session now cid s)
      = some { sess with last_seen := now } := by
    rw [lookupSession_get_or_create, h]
  constructor
  · simp only [get_next_command, h1, hq]
  · simp only [get_next_command, h1, hq]
    rw [lookupSession_updateTargets, h1]
    simp [hq]

theorem get_next_command_of_queue_nil (now : Int) (cid : String) (s : Sessions)
    (sess : ClientSession)
    (h : lookupSession cid s = some sess) (hq : sess.queue = []) :
    (get_next_command now cid s).2 = none ∧
    lookupSession cid (get_next_command now cid s).1
      = some { sess with last_seen := now } := by
  have h1 : lookupSession cid (get_or_create_session now cid s)
      = some { sess with last_seen := now } := by
    rw [lookupSession_get_or_create, h]
  constructor
  · simp only [get_next_command, h1, hq]
  · simp only [get_next_command, h1, hq]

theorem pollN_of_empty_queue (now : Int) (cid : String) :
    ∀ (k : Nat) (s : Sessions) (sess : ClientSession),
    lookupSession cid s = some sess → sess.queue = [] →
    (pollN now cid k s).2 = List.replicate k none := by
  intro k
  induction k with
  | zero => intro s sess h hq; rfl
  | succ k ih =>
      intro s sess h hq
      obtain ⟨h2, h1⟩ := get_next_command_of_queue_nil now cid s sess h hq
      rw [pollN]
      simp only [h2]
      rw [ih (get_next_command now cid s).1 _ h1 hq]
      rfl

theorem pollN_drain (now : Int) (cid : String) :
    ∀ (q : List Command) (k : Nat) (s : Sessions) (sess : ClientSession),
    lookupSession cid s = some sess → sess.queue = q →
    (pollN now cid (q.length + k) s).2 = q.map some ++ List.replicate k none := by
  intro q
  induction q with
  | nil =>
      intro k s sess h hq
      simpa using pollN_of_empty_queue now cid k s sess h hq
  | cons c restq ih =>
      intro k s sess h hq
      obtain ⟨h2, h1⟩ := get_next_command_of_queue_cons now cid s sess c restq h hq
      have hlen : (c :: restq).length + k = (restq.length + k) + 1 := by
        simp [List.length_cons]
        omega
      rw [hlen, pollN]
      simp only [h2]
      rw [ih k (get_next_command now cid s).1 _ h1 rfl]
      rfl

/-! ### Sweep characterisation -/

theorem foldl_filter_ne (timeoutIds : List String) :
    ∀ s : Sessions,
    timeoutIds.foldl (fun acc cid => acc.filter (fun p => p.1 != cid)) s
      = s.filter (fun p => decide (p.1 ∉ timeoutIds)) := by
  induction timeoutIds with
  | nil =>
      intro s
      simp
  | cons i rest ih =>
      intro s
      rw [List.foldl_cons, ih, List.filter_filter]
      apply List.filter_congr
      intro p _
      by_cases h1 : p.1 = i <;> by_cases h2 : p.1 ∈ rest <;> simp [h1, h2]

theorem nodup_keys_entry_eq :
    ∀ (s : Sessions), (s.map Prod.fst).Nodup →
    ∀ p q : String × ClientSession, p ∈ s → q ∈ s → p.1 = q.1 → p = q := by
  intro s
  induction s with
  | nil => intro _ p q hp; simp at hp
  | cons a rest ih =>
      intro h p q hp hq hk
      rw [List.map_cons, List.nodup_cons] at h
      rcases List.mem_cons.mp hp with hp1 | hp1 <;>
        rcases List.mem_cons.mp hq with hq1 | hq1
      · rw [hp1, hq1]
      · exfalso
        apply h.1
        have hmem : q.1 ∈ List.map Prod.fst rest := List.mem_map_of_mem Prod.fst hq1
        rw [← hk, hp1] at hmem
        exact hmem
      · exfalso
        apply h.1
        have hmem : p.1 ∈ List.map Prod.fst rest := List.mem_map_of_mem Prod.fst hp1
        rw [hk, hq1] at hmem
        exact hmem
      · exact ih h.2 p q hp1 hq1 hk

theorem map_interrupt_of_mkBatch_false :
    ∀ l : List String,
    (l.map (fun m => mkBatchCommand m false)).map Command.interrupt
      = List.replicate l.length false := by
  intro l
  induction l with
  | nil => rfl
  | cons x xs ih => simpa [mkBatchCommand, List.replicate_succ] using ih

theorem play_scenes_eq (req : PlayScenesRequest) (avail : List String) (s : Sessions) :
    play_scenes req avail s
      = (enqueueList (resolveTargets req.client_id s)
           (batchCmds avail (truthyBool req.interrupt) true req.scenes)
           (if truthyBool req.interrupt then clearAll (resolveTargets req.client_id s) s else s),
         { status := "ok",
           queued := req.scenes.filter (fun n => decide (n ∈ avail)),
           targets := (resolveTargets req.client_id s).length }) := by
  simp only [play_scenes, playScenesLoop_sessions, playScenesLoop_queued, List.nil_append]

/-! ### The claims -/

/-- C2: for every session and every sequence of commands enqueued on its
(initially empty) queue, repeated `GET /queue` polls return exactly those
commands, in enqueue order, followed by empty results: nothing is reordered,
merged, dropped, or delivered twice. -/
theorem queue_fifo_delivery (now : Int) (cid : String) (s : Sessions)
    (sess : ClientSession) (cs : List Command) (k : Nat)
    (h : lookupSession cid s = some sess) (hq : sess.queue = []) :
    (pollN now cid (cs.length + k) (enqueueList [cid] cs s)).2
      = cs.map some ++ List.replicate k none := by
  have h1 : lookupSession cid (enqueueList [cid] cs s) = some { sess with queue := cs } := by
    have h2 := lookupSession_enqueueList [cid] cs cid s (by simp) sess h
    simpa [hq] using h2
  exact pollN_drain now cid cs k _ _ h1 rfl

/-- Witness for C2 at a concrete store: two enqueued commands come back in
order, then two empty polls. -/
theorem queue_fifo_delivery_witness :
    lookupSession "x" exSessions = some (freshSession 0) ∧
    (freshSession 0).queue = [] ∧
    (pollN 5 "x" ([profileCommand (some "a"), profileCommand (some "b")].length + 2)
        (enqueueList ["x"] [profileCommand (some "a"), profileCommand (some "b")] exSessions)).2
      = [profileCommand (some "a"), profileCommand (some "b")].map some
          ++ List.replicate 2 none :=
  ⟨by decide, rfl,
   queue_fifo_delivery 5 "x" exSessions (freshSession 0)
     [profileCommand (some "a"), profileCommand (some "b")] 2 (by decide) rfl⟩

/-- C4: a successful `POST /playScene` with `interrupt=true` clears each
targeted queue before appending, so afterwards every targeted queue holds
exactly the one new play-scene command (which carries `interrupt=true`). -/
theorem play_scene_interrupt_singleton (req : PlayRequest) (scenes : List String)
    (s : Sessions) (cid : String) (sess : ClientSession)
    (hint : req.interrupt = some true) (hscene : req.scene ∈ scenes)
    (htgt : cid ∈ resolveTargets req.client_id s)
    (h : lookupSession cid s = some sess) :
    (play_scene req scenes s).2
      = Except.ok { status := "queued", targets := (resolveTargets req.client_id s).length } ∧
    lookupSession cid (play_scene req scenes s).1
      = some { sess with queue := [playSceneCommand req true] } ∧
    (playSceneCommand req true).interrupt = true := by
  have htr : truthyBool req.interrupt = true := by rw [hint]; rfl
  refine ⟨?_, ?_, ?_⟩
  · simp [play_scene, htr, hint, hscene]
  · simp only [play_scene, hint, truthyBool, Option.getD_some, eq_self_iff_true,
      if_true, if_pos hscene]
    rw [lookupSession_enqueueAll, lookupSession_clearAll, h]
    simp [htgt]
  · rfl

/-- Witness for C4: one targeted session with a pending command; after the
interrupting play-scene its queue is exactly the new command. -/
theorem play_scene_interrupt_singleton_witness :
    ({ scene := "s1", client_id := some "a" } : PlayRequest).interrupt = some true ∧
    ({ scene := "s1", client_id := some "a" } : PlayRequest).scene ∈ ["s1"] ∧
    "a" ∈ resolveTargets (some "a") exStaleSessions ∧
    lookupSession "a" exStaleSessions = some { freshSession 0 with queue := [exCommand] } ∧
    ((play_scene { scene := "s1", client_id := some "a" } ["s1"] exStaleSessions).2
        = Except.ok { status := "queued",
                      targets := (resolveTargets (some "a") exStaleSessions).length } ∧
     lookupSession "a" (play_scene { scene := "s1", client_id := some "a" } ["s1"]
          exStaleSessions).1
        = some { freshSession 0 with
            queue := [playSceneCommand { scene := "s1", client_id := some "a" } true] } ∧
     (playSceneCommand { scene := "s1", client_id := some "a" } true).interrupt = true) :=
  ⟨rfl, by decide, by decide, by decide,
   play_scene_interrupt_singleton { scene := "s1", client_id := some "a" } ["s1"]
     exStaleSessions "a" { freshSession 0 with queue := [exCommand] }
     rfl (by decide) (by decide) (by decide)⟩

/-- C6: every command enqueued by `POST /applyProfile` has `interrupt=false`,
and no session's queue is ever cleared or otherwise disturbed: each stored
queue is either untouched or extended at the end by the one profile command,
whatever the caller supplies. -/
theorem apply_profile_never_interrupts (inp : CommandInput) (s : Sessions)
    (cid : String) (sess : ClientSession) (h : lookupSession cid s = some sess) :
    (profileCommand inp.profile).interrupt = false ∧
    (lookupSession cid (apply_profile inp s).1 = some sess ∨
      lookupSession cid (apply_profile inp s).1
        = some { sess with queue := sess.queue ++ [profileCommand inp.profile] }) := by
  refine ⟨rfl, ?_⟩
  by_cases htgt : cid ∈ resolveTargets inp.client_id s
  · right
    simp only [apply_profile]
    rw [lookupSession_enqueueAll, h]
    simp [htgt]
  · left
    simp only [apply_profile]
    rw [lookupSession_enqueueAll, h]
    simp [htgt]

/-- Witness for C6 at a concrete broadcast call. -/
theorem apply_profile_never_interrupts_witness :
    lookupSession "x" exSessions = some (freshSession 0) ∧
    ((profileCommand (some "p")).interrupt = false ∧
     (lookupSession "x" (apply_profile { profile := some "p" } exSessions).1
        = some (freshSession 0) ∨
      lookupSession "x" (apply_profile { profile := some "p" } exSessions).1
        = some { freshSession 0 with
            queue := (freshSession 0).queue ++ [profileCommand (some "p")] })) :=
  ⟨by decide, apply_profile_never_interrupts { profile := some "p" } exSessions "x"
    (freshSession 0) (by decide)⟩

/-- C3: for `POST /playScenes` with `interrupt=true` and at least one
requested name present in the scene definitions, the batch enqueued on each
targeted (and therefore just-cleared) queue starts with an `interrupt=true`
command and continues with `interrupt=false` commands only, and the
response's `queued` list is exactly the requested names that exist, in
request order. -/
theorem play_scenes_first_interrupt_only (req : PlayScenesRequest) (avail : List String)
    (s : Sessions) (cid n : String) (restf : List String) (sess : ClientSession)
    (hint : req.interrupt = some true)
    (hfilter : req.scenes.filter (fun m => decide (m ∈ avail)) = n :: restf)
    (htgt : cid ∈ resolveTargets req.client_id s)
    (h : lookupSession cid s = some sess) :
    (play_scenes req avail s).2.queued = n :: restf ∧
    lookupSession cid (play_scenes req avail s).1
      = some { sess with queue := (mkBatchCommand n true ::
          restf.map (fun m => mkBatchCommand m false)) } ∧
    (mkBatchCommand n true :: restf.map (fun m => mkBatchCommand m false)).map
        Command.interrupt
      = true :: List.replicate restf.length false := by
  have htr : truthyBool req.interrupt = true := by rw [hint]; rfl
  have hb := batchCmds_of_filter_cons avail true n restf req.scenes hfilter
  refine ⟨?_, ?_, ?_⟩
  · rw [play_scenes_eq]
    simp [hfilter]
  · have hclear : lookupSession cid (clearAll (resolveTargets req.client_id s) s)
        = some { sess with queue := [] } := by
      rw [lookupSession_clearAll, h]
      simp [htgt]
    rw [play_scenes_eq, htr, hb]
    simp only [eq_self_iff_true, if_true]
    rw [lookupSession_enqueueList _ _ cid _ htgt _ hclear]
    simp
  · simp only [List.map_cons, map_interrupt_of_mkBatch_false]
    rfl

/-- Witness for C3: a two-scene interrupting batch against one session with
a pending command; only the first batch entry interrupts. -/
theorem play_scenes_first_interrupt_only_witness :
    ({ scenes := ["s1", "zz", "s2"], interrupt := some true } : PlayScenesRequest).interrupt
        = some true ∧
    ["s1", "zz", "s2"].filter (fun m => decide (m ∈ ["s1", "s2"])) = "s1" :: ["s2"] ∧
    "a" ∈ resolveTargets none exStaleSessions ∧
    lookupSession "a" exStaleSessions = some { freshSession 0 with queue := [exCommand] } ∧
    ((play_scenes { scenes := ["s1", "zz", "s2"], interrupt := some true } ["s1", "s2"]
        exStaleSessions).2.queued = "s1" :: ["s2"] ∧
     lookupSession "a" (play_scenes { scenes := ["s1", "zz", "s2"], interrupt := some true }
          ["s1", "s2"] exStaleSessions).1
        = some { freshSession 0 with queue := (mkBatchCommand "s1" true ::
            ["s2"].map (fun m => mkBatchCommand m false)) } ∧
     (mkBatchCommand "s1" true :: ["s2"].map (fun m => mkBatchCommand m false)).map
          Command.interrupt
        = true :: List.replicate ["s2"].length false) :=
  ⟨rfl, by decide, by decide, by decide,
   play_scenes_first_interrupt_only
     { scenes := ["s1", "zz", "s2"], interrupt := some true } ["s1", "s2"]
     exStaleSessions "a" "s1" ["s2"] { freshSession 0 with queue := [exCommand] }
     rfl (by decide) (by decide) (by decide)⟩

/-- C10: `POST /playScenes` with `interrupt=true` and no requested name in
the scene definitions still answers `ok` with an empty `queued` list, and
every targeted queue has been cleared and left empty: the pending commands
are discarded with no replacement enqueued. -/
theorem play_scenes_no_valid_scene_clears (req : PlayScenesRequest) (avail : List String)
    (s : Sessions) (cid : String) (sess : ClientSession)
    (hint : req.interrupt = some true)
    (hfilter : req.scenes.filter (fun m => decide (m ∈ avail)) = [])
    (htgt : cid ∈ resolveTargets req.client_id s)
    (h : lookupSession cid s = some sess) :
    (play_scenes req avail s).2
      = { status := "ok", queued := [],
          targets := (resolveTargets req.client_id s).length } ∧
    lookupSession cid (play_scenes req avail s).1 = some { sess with queue := [] } := by
  have htr : truthyBool req.interrupt = true := by rw [hint]; rfl
  have hb := batchCmds_of_filter_nil avail true req.scenes true hfilter
  constructor
  · rw [play_scenes_eq]
    simp [hfilter]
  · rw [play_scenes_eq, htr, hb]
    simp only [eq_self_iff_true, if_true, enqueueList]
    simp only [List.foldl_nil]
    rw [lookupSession_clearAll, h]
    simp [htgt]

/-- Witness for C10: an interrupting batch of one unknown scene empties the
target's queue while the response reports success with nothing queued. -/
theorem play_scenes_no_valid_scene_clears_witness :
    ({ scenes := ["zz"], interrupt := some true } : PlayScenesRequest).interrupt = some true ∧
    ["zz"].filter (fun m => decide (m ∈ ["s1"])) = [] ∧
    "a" ∈ resolveTargets none exStaleSessions ∧
    lookupSession "a" exStaleSessions = some { freshSession 0 with queue := [exCommand] } ∧
    ((play_scenes { scenes := ["zz"], interrupt := some true } ["s1"] exStaleSessions).2
        = { status := "ok", queued := [],
            targets := (resolveTargets none exStaleSessions).length } ∧
     lookupSession "a" (play_scenes { scenes := ["zz"], interrupt := some true } ["s1"]
          exStaleSessions).1
        = some { freshSession 0 with queue := ([] : List Command) }) :=
  ⟨rfl, by decide, by decide, by decide,
   play_scenes_no_valid_scene_clears { scenes := ["zz"], interrupt := some true } ["s1"]
     exStaleSessions "a" { freshSession 0 with queue := [exCommand] }
     rfl (by decide) (by decide) (by decide)⟩

/-- C7: `POST /report` always answers ok, creates the session if unseen, and
afterwards the reported state carries exactly the submitted
`current_profile`, `current_scene`, `queue_size` and `is_looping` (including
null/absent defaults), while `is_muted`, `is_sync_enabled` and the command
queue are those the session had before (or the fresh defaults for a new
session). -/
theorem report_overwrites_reportable_fields (now : Int) (r : StatusReport) (s : Sessions) :
    (report_status now r s).2 = "ok" ∧
    lookupSession r.client_id (report_status now r s).1
      = some (let old := (lookupSession r.client_id s).getD (freshSession now)
              { old with
                last_seen := now,
                state := { old.state with
                  current_profile := r.current_profile,
                  current_scene := r.current_scene,
                  queue_size := r.queue_size,
                  is_looping := r.is_looping } }) := by
  refine ⟨rfl, ?_⟩
  simp only [report_status]
  rw [lookupSession_updateTargets, lookupSession_get_or_create]
  cases hl : lookupSession r.client_id s <;> simp [freshSession]

/-- C8: the idle sweep removes exactly the sessions whose
`now - last_seen` strictly exceeds the timeout (silently dropping their
queued commands) and keeps every other entry — id, queue and state —
unchanged and in order. -/
theorem cleanup_sessions_removes_stale (now timeout : Int) (s : Sessions)
    (h : (s.map Prod.fst).Nodup) :
    cleanup_sessions now s timeout
      = s.filter (fun p => !decide (now - p.2.last_seen > timeout)) := by
  simp only [cleanup_sessions]
  rw [foldl_filter_ne]
  apply List.filter_congr
  intro p hp
  by_cases hc : now - p.2.last_seen > timeout
  · have hmem : p.1 ∈ (s.filter (fun q => decide (now - q.2.last_seen > timeout))).map
        Prod.fst :=
      List.mem_map_of_mem Prod.fst (List.mem_filter.mpr ⟨hp, by simpa using hc⟩)
    simp [hmem, hc]
  · have hnot : p.1 ∉ (s.filter (fun q => decide (now - q.2.last_seen > timeout))).map
        Prod.fst := by
      intro hmem
      obtain ⟨q, hq, hqk⟩ := List.mem_map.mp hmem
      have hq2 := List.mem_filter.mp hq
      have hpq : q = p := nodup_keys_entry_eq s h q p hq2.1 hp hqk
      rw [hpq] at hq2
      exact hc (by simpa using hq2.2)
    simp [hnot, hc]

/-- Witness for C8: at `now = 400` with timeout 300, the session idle for
400 seconds is reaped (commands and all) and the one idle for 300 seconds
survives untouched. -/
theorem cleanup_sessions_removes_stale_witness :
    ((exStaleSessions ++ [("b", freshSession 100)]).map Prod.fst).Nodup ∧
    cleanup_sessions 400 (exStaleSessions ++ [("b", freshSession 100)]) 300
      = (exStaleSessions ++ [("b", freshSession 100)]).filter
          (fun p => !decide ((400 : Int) - p.2.last_seen > 300)) :=
  ⟨by decide, cleanup_sessions_removes_stale 400 300
    (exStaleSessions ++ [("b", freshSession 100)]) (by decide)⟩

/-- C1 (documenting the code bug): `POST /playScene` for a scene name absent
from the scene definitions does return the Not-Found error, but with the
default `interrupt=true` the targeted queues are cleared *before* the name
is validated, so the failed call leaves the store mutated: the session that
held one pending command ends up with an empty queue and no replacement
command — contradicting the spec's validation-precedes-mutation rule. -/
theorem play_scene_missing_scene_clears_queue :
    (play_scene { scene := "missing" } [] exStaleSessions).2
      = Except.error (404, "Scene missing not found") ∧
    lookupSession "a" exStaleSessions
      = some { freshSession 0 with queue := [exCommand] } ∧
    lookupSession "a" (play_scene { scene := "missing" } [] exStaleSessions).1
      = some (freshSession 0) :=
  ⟨rfl, rfl, rfl⟩

/-- C5 counterexample: the empty string is a client id for which no session
exists in the store below, yet `apply_profile` resolves it — via Python
truthiness — to a broadcast: it reports one target and enqueues onto the
(unrelated) session `"x"`, not zero targets with no mutation. -/
theorem empty_client_id_targets_existing_sessions :
    lookupSession "" exSessions = none ∧
    (apply_profile { profile := some "p", client_id := some "" } exSessions).2.targets
      = 1 ∧
    lookupSession "x" (apply_profile { profile := some "p", client_id := some "" }
        exSessions).1
      = some { freshSession 0 with queue := [profileCommand (some "p")] } :=
  ⟨rfl, rfl, rfl⟩

/-- C5 (amended): every command-issuing or status-push operation called with
a *nonempty* client id for which no session exists affects zero sessions,
reports `targets = 0` without error (given, for play-scene, a known scene
name and an interrupt flag that passes the `Command` model's boolean
validation), and creates no session: the store is returned unchanged. -/
theorem unknown_nonempty_target_noop (cid : String) (s : Sessions)
    (pr : Option String) (m e : Option Bool)
    (scene : String) (lp j : Option Bool) (ib : Bool) (au ms : Option String)
    (names scenes avail : List String)
    (hne : cid ≠ "") (habs : lookupSession cid s = none) (hscene : scene ∈ scenes) :
    apply_profile { profile := pr, client_id := some cid } s
      = (s, { status := "queued", targets := 0 }) ∧
    update_status { client_id := some cid, is_muted := m, is_sync_enabled := e } s
      = (s, 0) ∧
    play_scene { scene := scene, loop := lp, audio_url := au, msg := ms,
                 interrupt := some ib, client_id := some cid } scenes s
      = (s, Except.ok { status := "queued", targets := 0 }) ∧
    play_scenes { scenes := names, interrupt := j, client_id := some cid } avail s
      = (s, { status := "ok", queued := names.filter (fun nm => decide (nm ∈ avail)),
              targets := 0 }) := by
  have hrt : resolveTargets (some cid) s = [] := resolveTargets_unknown cid s hne habs
  refine ⟨?_, ?_, ?_, ?_⟩
  · simp [apply_profile, hrt, enqueueAll, updateTargets_nil_targets]
  · simp [update_status, hrt, updateTargets_nil_targets]
  · simp [play_scene, hrt, clearAll, enqueueAll, updateTargets_nil_targets, hscene,
      ite_self, truthyBool]
  · rw [play_scenes_eq]
    simp [hrt, clearAll, updateTargets_nil_targets, enqueueList_nil_targets, ite_self]

/-- Witness for the amended C5 at a concrete unknown id `"y"`. -/
theorem unknown_nonempty_target_noop_witness :
    ("y" ≠ "" ∧ lookupSession "y" exSessions = none ∧ "s1" ∈ ["s1"]) ∧
    (apply_profile { profile := some "p", client_id := some "y" } exSessions
      = (exSessions, { status := "queued", targets := 0 }) ∧
    update_status { client_id := some "y", is_muted := some true,
                    is_sync_enabled := none } exSessions
      = (exSessions, 0) ∧
    play_scene { scene := "s1", loop := some false, audio_url := none, msg := none,
                 interrupt := some true, client_id := some "y" } ["s1"] exSessions
      = (exSessions, Except.ok { status := "queued", targets := 0 }) ∧
    play_scenes { scenes := ["s1", "zz"], interrupt := some true,
                  client_id := some "y" } ["s1"] exSessions
      = (exSessions,
         { status := "ok",
           queued := ["s1", "zz"].filter (fun nm => decide (nm ∈ ["s1"])),
           targets := 0 })) :=
  ⟨⟨by decide, by decide, by decide⟩,
   unknown_nonempty_target_noop "y" exSessions (some "p") (some true) none "s1"
     (some false) (some true) true none none ["s1", "zz"] ["s1"] ["s1"]
     (by decide) (by decide) (by decide)⟩

/-- C9: an empty-string client id is treated exactly like an absent one by
every command-issuing and status-push operation — it broadcasts to all
currently known sessions rather than addressing a session with id `""`,
even though such a session is creatable by polling with `client_id=""`
(last conjunct). -/
theorem empty_client_id_broadcasts (s : Sessions) (pr : Option String)
    (m e : Option Bool) (scene : String) (lp i j : Option Bool)
    (au ms : Option String) (names scenes avail : List String) :
    apply_profile { profile := pr, client_id := some "" } s
      = apply_profile { profile := pr, client_id := none } s ∧
    update_status { client_id := some "", is_muted := m, is_sync_enabled := e } s
      = update_status { client_id := none, is_muted := m, is_sync_enabled := e } s ∧
    play_scene { scene := scene, loop := lp, audio_url := au, msg := ms,
                 interrupt := i, client_id := some "" } scenes s
      = play_scene { scene := scene, loop := lp, audio_url := au, msg := ms,
                     interrupt := i, client_id := none } scenes s ∧
    play_scenes { scenes := names, interrupt := j, client_id := some "" } avail s
      = play_scenes { scenes := names, interrupt := j, client_id := none } avail s ∧
    lookupSession "" (get_next_command 0 "" []).1 = some (freshSession 0) := by
  refine ⟨?_, ?_, ?_, ?_, by decide⟩
  · simp [apply_profile, resolveTargets_empty_string]
  · simp [update_status, resolveTargets_empty_string]
  · simp only [play_scene, resolveTargets_empty_string]
    rfl
  · simp [play_scenes_eq, resolveTargets_empty_string]

end Emil
